import Mathlib

/-!
A verification development for a minimal template engine
(`lib/template_engine.py`).  The engine compiles a template text into a
Python render function via textual code generation and `exec`; here the
compile-then-render pipeline is embedded shallowly:

* template text and all names are `List Char` (Python 2 `str`);
* the tokenizer `re.split(r"(?s)({{.*?}}|{%.*?%}|{#.*?#})", template)` is
  implemented directly (leftmost match, non-greedy = first closer);
* the generated Python code is represented by the instruction/expression
  tree it denotes (`Instr`/`Expr`), and `exec` of that code by a
  tree-walking evaluator with a step-indexed fuel (the fuel only models
  termination of the embedding; the fuel supplied by `Template.render` is
  generous and all theorems below are insensitive to it);
* Python run-time values are the inductive universe `PyVal`, with
  callables defunctionalized (zero-argument thunks and the unary
  functions that appear in the repository's tests).
-/

/-- Python strings are modelled as lists of characters. -/
abbrev Name := List Char

/-- A context / dict: an insertion-ordered association list (one binding
per key, as in a Python dict). -/
abbrev DictL (α : Type) := List (Name × α)

/-- Whitespace for Python `str.strip()` / `str.split()`:
space, tab, newline, carriage return, vertical tab, form feed. -/
def isPySpace (c : Char) : Bool :=
  c = ' ' || c = '\t' || c = '\n' || c = '\r' ||
  c = Char.ofNat 11 || c = Char.ofNat 12

/-- Python `str.strip()`: drop leading and trailing whitespace. -/
def pystrip (s : Name) : Name :=
  ((s.dropWhile isPySpace).reverse.dropWhile isPySpace).reverse

/-- Helper for `splitWS`: accumulates the current word (reversed). -/
def splitWSAux (cur : Name) : Name → List Name
  | [] => if cur = [] then [] else [cur.reverse]
  | c :: rest =>
    if isPySpace c then
      if cur = [] then splitWSAux [] rest
      else cur.reverse :: splitWSAux [] rest
    else splitWSAux (c :: cur) rest

/-- Python `str.split()` with no argument: split on whitespace runs,
dropping empty pieces. -/
def splitWS (s : Name) : List Name := splitWSAux [] s

/-- Python `str.split(sep)` for a one-character separator: returns the
piece before the first separator and the list of remaining pieces
(so the full result `head :: tail` is always non-empty and keeps empty
pieces, as in Python). -/
def splitOnCharNE (sep : Char) : Name → Name × List Name
  | [] => ([], [])
  | c :: rest =>
    let (h, t) := splitOnCharNE sep rest
    if c = sep then ([], h :: t) else (c :: h, t)

/-- `s.startswith(ab)` for a two-character ab. -/
def startsWith2 (a b : Char) : Name → Bool
  | x :: y :: _ => x = a && y = b
  | _ => false

/-- `s.startswith(p)` for a general p. -/
def startsWithList : Name → Name → Bool
  | [], _ => true
  | _ :: _, [] => false
  | p :: ps, c :: cs => p = c && startsWithList ps cs

/-- Python `s[2:-2]`: drop the first two and last two characters
(empty when `len(s) <= 4`... more precisely the slice semantics
`take (len - 4)` after `drop 2`, which is empty for `len <= 4`). -/
def slice2m2 (s : Name) : Name := (s.drop 2).take (s.length - 4)

/-- Does `s` contain the two-character sequence `a b`? -/
def hasSub2 (a b : Char) : Name → Bool
  | x :: y :: t => (x = a && y = b) || hasSub2 a b (y :: t)
  | _ => false

/-- Does `s` contain `sub` as a contiguous substring? -/
def containsSub (sub : Name) : Name → Bool
  | [] => startsWithList sub []
  | c :: cs => startsWithList sub (c :: cs) || containsSub sub cs

/-- Python's single-quote character, used by `repr` on strings. -/
def quoteChar : Char := Char.ofNat 39

/-- Python 2 `repr` of a `str`, as it appears in the engine's error
messages (`"%s: %r"`); escaping of special characters inside the string
is not needed for any template in this development. -/
def pyRepr (s : Name) : Name := quoteChar :: (s ++ [quoteChar])

/-! ## Python run-time values -/

/-- Tags for the unary callables used as filters in the repository's
tests: `upper = lambda x: x.upper()` and `first = lambda x: x[0]`. -/
inductive Fn1Tag where
  | upperF
  | firstF
deriving DecidableEq

/-- A Python run-time value.  `thunk r` is a zero-argument callable
returning `r` (it models bound methods such as `return_stuff` in the
tests, whose call result is `r`); `fn1 t` is one of the unary filter
callables; `pyObj` is a plain object exposing the listed attributes
(only user-defined attributes are modelled: `getattr` on any other
value or name raises AttributeError, which is what Python does for the
attribute names exercised in this development). -/
inductive PyVal where
  | noneV
  | bool (b : Bool)
  | int (n : Int)
  | str (s : Name)
  | list (xs : List PyVal)
  | dict (kvs : List (Name × PyVal))
  | pyObj (attrs : List (Name × PyVal))
  | thunk (r : PyVal)
  | fn1 (t : Fn1Tag)

/-- The Python exceptions this program can raise, as distinguishable
kinds.  `keyErr` models `KeyError` (a `LookupError`), `nameErr` models
`NameError`/`UnboundLocalError`, `templateSynErr` carries the full
message text of a `TemplateSyntaxError` raised by `_syntax_error`,
`srcSynErr` models the `SyntaxError` raised by `exec` in
`CodeBuilder.get_globals` when the generated source is not valid
Python, `indexErr` models `IndexError` (both `words[0]` on an empty
list and `x[0]` on an empty sequence), and `fuelErr` is an artifact of
the step-indexed evaluator (never produced under the generous fuel used
by `Template.render` for the programs considered in the theorems). -/
inductive PErr where
  | keyErr (name : Name)
  | typeErr
  | attrErr
  | valueErr
  | indexErr
  | nameErr (name : Name)
  | templateSynErr (msg : Name)
  | srcSynErr
  | fuelErr
deriving DecidableEq

/-- First binding for a key in an association list (a Python dict has
at most one). -/
def assocFind (kvs : DictL PyVal) (k : Name) : Option PyVal :=
  match kvs with
  | [] => none
  | (k', v) :: rest => if k' = k then some v else assocFind rest k

/-- Set a key in an association list, replacing an existing binding in
place (Python dict assignment keeps insertion order). -/
def assocSet (kvs : DictL PyVal) (k : Name) (v : PyVal) : DictL PyVal :=
  match kvs with
  | [] => [(k, v)]
  | (k', v') :: rest =>
    if k' = k then (k', v) :: rest else (k', v') :: assocSet rest k v

/-- `d.update(d2)`: fold `d2`'s bindings into `d`. -/
def dictUpdateAll (d d2 : DictL PyVal) : DictL PyVal :=
  d2.foldl (fun acc kv => assocSet acc kv.1 kv.2) d

/-- `dict(d)`: a fresh mapping with the same entries.  In the pure
embedding the copied value is equal to the original; the point of the
copy in the source is that subsequent `update` calls touch only the
copy, which the pure `dictUpdateAll` reflects by construction. -/
def dictCopy (d : DictL PyVal) : DictL PyVal := d

/-- `value[key]` for a string key, as used by `_do_dots`:
dictionary lookup succeeds or raises KeyError; every other modelled
value raises TypeError (strings/lists/ints are not subscriptable by a
str key, plain objects and callables have no `__getitem__`). -/
def pyGetItem (v : PyVal) (k : Name) : Except PErr PyVal :=
  match v with
  | .dict kvs =>
    match assocFind kvs k with
    | some w => .ok w
    | none => .error (.keyErr k)
  | _ => .error .typeErr

/-- `getattr(value, name)`: attribute lookup on a plain object, raising
AttributeError when absent; on every other modelled value the attribute
names used in this development do not exist, so AttributeError. -/
def pyGetAttr (v : PyVal) (k : Name) : Except PErr PyVal :=
  match v with
  | .pyObj attrs =>
    match assocFind attrs k with
    | some w => .ok w
    | none => .error .attrErr
  | _ => .error .attrErr

/-- `callable(value)`. -/
def pyCallable : PyVal → Bool
  | .thunk _ => true
  | .fn1 _ => true
  | _ => false

/-- Call a value with no arguments, as `_do_dots` does:
a thunk returns its result; a unary callable raises TypeError
(wrong arity); anything else raises TypeError (not callable). -/
def pyCall0 : PyVal → Except PErr PyVal
  | .thunk r => .ok r
  | _ => .error .typeErr

/-- ASCII uppercase, for the `upper` filter. -/
def toUpperName (s : Name) : Name := s.map Char.toUpper

/-- Call a value with one argument, as a compiled filter application
`c_f(x)` does.  `upperF` is `lambda x: x.upper()` (AttributeError on a
non-string); `firstF` is `lambda x: x[0]` (IndexError on an empty
sequence, TypeError on a non-indexable value); thunks take no argument
(TypeError), and non-callables raise TypeError. -/
def pyCall1 (f : PyVal) (x : PyVal) : Except PErr PyVal :=
  match f with
  | .fn1 .upperF =>
    match x with
    | .str s => .ok (.str (toUpperName s))
    | _ => .error .attrErr
  | .fn1 .firstF =>
    match x with
    | .str (c :: _) => .ok (.str [c])
    | .str [] => .error .indexErr
    | .list (y :: _) => .ok y
    | .list [] => .error .indexErr
    | _ => .error .typeErr
  | _ => .error .typeErr

/-- Python truthiness, for `if c_cond:`. -/
def truthy : PyVal → Bool
  | .noneV => false
  | .bool b => b
  | .int n => n ≠ 0
  | .str s => s ≠ []
  | .list [] => false
  | .list (_ :: _) => true
  | .dict [] => false
  | .dict (_ :: _) => true
  | .pyObj _ => true
  | .thunk _ => true
  | .fn1 _ => true

/-- Iteration for `for c_x in EXPR:`: lists yield their elements, a
string yields its characters as one-character strings, a dict yields
its keys (insertion order in the model), anything else raises
TypeError. -/
def pyIter : PyVal → Except PErr (List PyVal)
  | .list xs => .ok xs
  | .str s => .ok (s.map fun c => .str [c])
  | .dict kvs => .ok (kvs.map fun kv => .str kv.1)
  | _ => .error .typeErr

/-- `str(value)` as used by `to_str` on emitted expressions.  Container
and callable values are never rendered by any template in this
development; they are given fixed placeholder strings (Python would
print them element-wise / with their address). -/
def pyStr : PyVal → Name
  | .noneV => "None".data
  | .bool true => "True".data
  | .bool false => "False".data
  | .int n => (toString n).data
  | .str s => s
  | .list _ => "<list>".data
  | .dict _ => "<dict>".data
  | .pyObj _ => "<object>".data
  | .thunk _ => "<function>".data
  | .fn1 _ => "<function>".data

/-! ## `Template._do_dots`, the runtime dotted-access resolver -/

/-- The exception classes caught by the inner `except` of `_do_dots`:
`(TypeError, AttributeError, KeyError, ValueError, IndexError)`. -/
def isCaughtLookupErr : PErr → Bool
  | .typeErr => true
  | .attrErr => true
  | .keyErr _ => true
  | .valueErr => true
  | .indexErr => true
  | _ => false

/-- The inner `try`/`except` of `_do_dots`: try `value[dot]`; on one of
the caught exception classes fall back to `getattr(value, dot)`. -/
def dotLookup (value : PyVal) (dot : Name) : Except PErr PyVal :=
  match pyGetItem value dot with
  | .ok w => .ok w
  | .error e => if isCaughtLookupErr e then pyGetAttr value dot else .error e

/-- `if callable(value): value = value()`. -/
def dotCall (v : PyVal) : Except PErr PyVal :=
  if pyCallable v then pyCall0 v else .ok v

/-- One iteration of the loop in `_do_dots`: the guarded lookup, then
the call-if-callable step. -/
def dotStep (value : PyVal) (dot : Name) : Except PErr PyVal :=
  match dotLookup value dot with
  | .ok v => dotCall v
  | .error e => .error e

/-- The body of the outer `try` of `_do_dots`: the whole loop over the
dots, with exceptions propagating. -/
def doDotsLoop : PyVal → List Name → Except PErr PyVal
  | v, [] => .ok v
  | v, d :: ds =>
    match dotStep v d with
    | .ok w => doDotsLoop w ds
    | .error e => .error e

/-- `_do_dots(var, *dots)`: run the loop; any exception is caught by the
outer `except Exception`, a diagnostic is printed (not modelled), and
the result degrades to the empty string. -/
def do_dots (var : PyVal) (dots : List Name) : PyVal :=
  match doDotsLoop var dots with
  | .ok v => v
  | .error _ => .str []

/-! ## `Template._tokenize` -/

/-- Find the first adjacent pair `a b` in a list; return the characters
before the pair and the characters after it.  This is the non-greedy
`.*?` followed by the two-character closer in the tokenizing regex. -/
def findClose (a b : Char) : Name → Option (Name × Name)
  | x :: y :: t =>
    if x = a && y = b then some ([], t)
    else
      match findClose a b (y :: t) with
      | some (p, r) => some (x :: p, r)
      | none => none
  | _ => none

/-- Try to match one of `{{.*?}}`, `{%.*?%}`, `{#.*?#}` at the current
position (`c :: rest`); on success return the whole matched tag
(delimiters included) and the remaining input.  `(?s)` lets the dot
match newlines, so no character is special inside a tag. -/
def tryTag (c : Char) (rest : Name) : Option (Name × Name) :=
  if c = '{' then
    match rest with
    | d :: rest2 =>
      if d = '{' then
        (findClose '}' '}' rest2).map fun pr => ('{' :: '{' :: (pr.1 ++ ['}', '}']), pr.2)
      else if d = '%' then
        (findClose '%' '}' rest2).map fun pr => ('{' :: '%' :: (pr.1 ++ ['%', '}']), pr.2)
      else if d = '#' then
        (findClose '#' '}' rest2).map fun pr => ('{' :: '#' :: (pr.1 ++ ['#', '}']), pr.2)
      else none
    | [] => none
  else none

/-- Step-indexed scanner behind `tokenize`; `acc` holds the current
literal chunk reversed.  Each step advances at least one character, so
the fuel `length + 1` used by `tokenize` never runs out; the fuel-zero
fallback emits the rest as one literal and is unreachable. -/
def tokenizeFuel : Nat → Name → Name → List Name
  | 0, rem, acc => [acc.reverse ++ rem]
  | _ + 1, [], acc => [acc.reverse]
  | fuel + 1, c :: rest, acc =>
    match tryTag c rest with
    | some (tag, rest') => acc.reverse :: tag :: tokenizeFuel fuel rest' []
    | none => tokenizeFuel fuel rest (c :: acc)

/-- `Template._tokenize`: `re.split(r"(?s)({{.*?}}|{%.*?%}|{#.*?#})", template)`.
The result alternates (possibly empty) literal pieces with fully
delimited tags, exactly as `re.split` with one capturing group does. -/
def tokenize (template : Name) : List Name :=
  tokenizeFuel (template.length + 1) template []

/-! ## Expression compiler (`_variable` and `_expr_code`) -/

/-- Compiled expression nodes: the Python expressions `_expr_code`
generates. `var n` is `c_n`; `filter f base` is `c_f(base)`;
`dots base path` is `do_dots(base, *path)`. -/
inductive Expr where
  | var (name : Name)
  | filter (fname : Name) (base : Expr)
  | dots (base : Expr) (path : List Name)

/-- Render instructions: the statements the code builder emits.
`literal` is `append_result(repr-text)`, `emit` is
`append_result(to_str(expr))`, `iff`/`forr` are the generated `if`/`for`
statements with their indented bodies. -/
inductive Instr where
  | literal (text : Name)
  | emit (e : Expr)
  | iff (cond : Expr) (body : List Instr)
  | forr (v : Name) (iter : Expr) (body : List Instr)

/-- `re.match(r"", name)`: the empty pattern matches (an empty string)
at position 0 of every string, so this is constantly `true` — the
validity guard in `_variable` can never fire. -/
def reMatchEmptyPattern (_ : Name) : Bool := true

/-- Python `set.add`, on an insertion-ordered duplicate-free list. -/
def addVar (vars : List Name) (n : Name) : List Name :=
  if n ∈ vars then vars else vars ++ [n]

/-- Build the message of `_syntax_error`: `"%s: %r" % (msg, thing)`. -/
def synErrMsg (msg : String) (thing : Name) : Name :=
  msg.data ++ ": ".data ++ pyRepr thing

/-- `_syntax_error(msg, thing)`: raise TemplateSyntaxError with the
formatted message. -/
def synErr (msg : String) (thing : Name) : PErr :=
  .templateSynErr (synErrMsg msg thing)

/-- `Template._variable(name, vars_set)`: check the name against the
pattern `r""` (see `reMatchEmptyPattern`: the check never fails) and add
it to the set. -/
def variableTrack (vars : List Name) (n : Name) : Except PErr (List Name) :=
  if !reMatchEmptyPattern n then .error (synErr "Not a valid variable name" n)
  else .ok (addVar vars n)

/-- The bare-variable branch of `_expr_code` (no `|`, no `.` in the
expression): track the name, emit `c_name`. -/
def exprCodeBare (vars : List Name) (e : Name) : Except PErr (List Name × Expr) := do
  let v ← variableTrack vars e
  .ok (v, Expr.var e)

/-- `_expr_code` on a pipe-free expression: the `.`-branch (split on
dots, compile the head — necessarily bare — and pass the remaining
segments to `do_dots` at render time) or the bare branch.  This is the
recursive call `_expr_code(pipes[0])` unrolled: that argument never
contains `|`. -/
def exprCodeNoPipe (vars : List Name) (e : Name) : Except PErr (List Name × Expr) :=
  if e.elem '.' then
    let (d0, path) := splitOnCharNE '.' e
    do
      let (v, base) ← exprCodeBare vars d0
      .ok (v, Expr.dots base path)
  else exprCodeBare vars e

/-- The filter fold of `_expr_code`'s pipe branch:
`for func in pipes[1:]: _variable(func, all_vars); code = c_func(code)`. -/
def filtersFold (vars : List Name) (base : Expr) : List Name → Except PErr (List Name × Expr)
  | [] => .ok (vars, base)
  | f :: rest => do
    let v ← variableTrack vars f
    filtersFold v (Expr.filter f base) rest

/-- `Template._expr_code(expr)`: pipe branch first (split on `|`,
compile the first piece, wrap the remaining pieces as filter calls
left-to-right), otherwise the dot/bare branches. -/
def expr_code (vars : List Name) (e : Name) : Except PErr (List Name × Expr) :=
  if e.elem '|' then
    let (p0, fs) := splitOnCharNE '|' e
    do
      let (v, base) ← exprCodeNoPipe vars p0
      filtersFold v base fs
  else exprCodeNoPipe vars e

/-! ## Block parser (the token loop of `Template.__init__`) -/

/-- One entry of `ops_stack`, together with the "current insertion
target" bookkeeping that the source keeps implicitly through the code
builder's indentation: the block's header data and the parent body to
return to at the matching end tag. -/
inductive Frame where
  | ifF (cond : Expr) (parent : List Instr)
  | forF (v : Name) (iter : Expr) (parent : List Instr)

/-- The kind string pushed on `ops_stack` (`'if'` / `'for'`). -/
def Frame.kind : Frame → Name
  | .ifF _ _ => "if".data
  | .forF _ _ _ => "for".data

/-- The parent body saved when the block was opened. -/
def Frame.parent : Frame → List Instr
  | .ifF _ p => p
  | .forF _ _ p => p

/-- Close a frame around a finished body, producing the block
instruction. -/
def Frame.close : Frame → List Instr → Instr
  | .ifF c _, body => .iff c body
  | .forF v it _, body => .forr v it body

/-- Parser state: the two variable registries, `ops_stack`, and the
body currently being emitted into. -/
structure ParseSt where
  allv : List Name
  loopv : List Name
  stack : List Frame
  cur : List Instr

/-- The initial parser state. -/
def initSt : ParseSt := ⟨[], [], [], []⟩

/-- Process one token of `_tokenize`'s output, as the token loop of
`Template.__init__` does.  Classification is by delimiter prefix;
action tags are split into words, and empty action tags hit `words[0]`
unguarded (IndexError). -/
def processToken (st : ParseSt) (token : Name) : Except PErr ParseSt :=
  if startsWith2 '{' '#' token then .ok st
  else if startsWith2 '{' '{' token then do
    let (v, e) ← expr_code st.allv (pystrip (slice2m2 token))
    .ok { st with allv := v, cur := st.cur ++ [Instr.emit e] }
  else if startsWith2 '{' '%' token then
    let words := splitWS (pystrip (slice2m2 token))
    match words with
    | [] => .error .indexErr
    | w0 :: _ =>
      if w0 = "if".data then
        match words with
        | [_, w1] => do
          let (v, c) ← expr_code st.allv w1
          .ok { st with allv := v, stack := Frame.ifF c st.cur :: st.stack, cur := [] }
        | _ => .error (synErr "Don't understand if" token)
      else if w0 = "for".data then
        match words with
        | [_, w1, w2, w3] =>
          if w2 ≠ "in".data then .error (synErr "Don't understand for" token)
          else do
            let lv ← variableTrack st.loopv w1
            let (v, it) ← expr_code st.allv w3
            .ok { st with
                  allv := v
                  loopv := lv
                  stack := Frame.forF w1 it st.cur :: st.stack
                  cur := [] }
        | _ => .error (synErr "Don't understand for" token)
      else if startsWithList "end".data w0 then
        match words with
        | [_] =>
          let end_what := w0.drop 3
          match st.stack with
          | [] => .error (synErr "Too many ends" token)
          | fr :: rest =>
            if fr.kind ≠ end_what then .error (synErr "Mismatched end tag" end_what)
            else .ok { st with stack := rest, cur := fr.parent ++ [fr.close st.cur] }
        | _ => .error (synErr "Don't understand end" token)
      else .error (synErr "Don't understand tag" w0)
  else
    if token = [] then .ok st
    else .ok { st with cur := st.cur ++ [Instr.literal token] }

/-- The full token loop. -/
def parseTokens : ParseSt → List Name → Except PErr ParseSt
  | st, [] => .ok st
  | st, t :: ts => do parseTokens (← processToken st t) ts

/-- Does `c_` followed by this name read as one valid Python 2
identifier?  When every tracked name (variables, filters, loop
variables) passes this check, every generated `c_<name>` occurrence is
a single identifier (the `c_` prefix provides the identifier start and
rules out keywords) and that part of the source is valid; a name
containing any other character is modelled as failing to compile.  The
latter direction deliberately under-approximates Python for exotic
tracked names (a dotted filter name such as `b.c` would generate the
valid attribute reference `c_b.c`, and a name with trailing whitespace
also compiles); no theorem below traverses a tracked name outside the
exact alphanumeric/underscore regime. -/
def identSuffixOK (n : Name) : Bool :=
  n.all fun c => c.isAlphanum || c = '_'

/-- Scan a worklist of generated instructions for a block statement
whose body is empty.  An `if`/`for` block into which no instruction was
emitted produces a header line with no indented suite (`flush_output`
runs before the closing tag is handled, so everything inside the block
is emitted at the indented level), and `exec` then raises
IndentationError — a SyntaxError subclass.  Structural on the fuel;
each instruction enters the worklist exactly once, and each token of
the template creates at most one instruction, so the fuel
`token count + 1` supplied by `Template.make` never runs out (the
fuel-zero fallback conservatively reports an empty body and is
unreachable). -/
def anyEmptyBodyFuel : Nat → List Instr → Bool
  | 0, _ => true
  | _ + 1, [] => false
  | fuel + 1, i :: rest =>
    match i with
    | .literal _ => anyEmptyBodyFuel fuel rest
    | .emit _ => anyEmptyBodyFuel fuel rest
    | .iff _ body => body.isEmpty || anyEmptyBodyFuel fuel (body ++ rest)
    | .forr _ _ body => body.isEmpty || anyEmptyBodyFuel fuel (body ++ rest)

/-- `CodeBuilder.get_globals`: `exec` the generated source, yielding
SyntaxError when it is not valid Python — a tracked name outside the
modelled identifier regime (see `identSuffixOK`), or a block with an
empty suite (see `anyEmptyBodyFuel`, IndentationError). -/
def execCompiles (names : List Name) (prog : List Instr) (fuel : Nat) : Bool :=
  names.all identSuffixOK && !anyEmptyBodyFuel fuel prog

/-- The compiled template: the merged default context, the variable
registries and the render program (`Template` objects after a
successful `__init__`). -/
structure Template where
  context : DictL PyVal
  all_vars : List Name
  loop_vars : List Name
  prog : List Instr

/-- `self.context = {}; for context in contexts: self.context.update(context)`. -/
def mergeContexts (contexts : List (DictL PyVal)) : DictL PyVal :=
  contexts.foldl (fun acc c => dictUpdateAll acc c) []

/-- `Template.__init__`: tokenize, run the token loop, reject an
unmatched open block (`ops_stack[-1]` is the most recently pushed
frame), then `exec` the generated source. -/
def Template.make (text : Name) (contexts : List (DictL PyVal)) : Except PErr Template := do
  let st ← parseTokens initSt (tokenize text)
  match st.stack with
  | fr :: _ => .error (synErr "Unmatched action tag" fr.kind)
  | [] =>
    if execCompiles (st.allv ++ st.loopv) st.cur ((tokenize text).length + 1) then
      .ok { context := mergeContexts contexts, all_vars := st.allv,
            loop_vars := st.loopv, prog := st.cur }
    else .error .srcSynErr

/-! ## Runtime evaluator (the generated `render_function`) -/

/-- The generated function's local variables `c_<name>`. -/
abbrev Env := DictL PyVal

/-- Evaluate a compiled expression against the local environment.
A name the prelude did not bind and no loop has bound yet is an unbound
local (NameError).  `dots` applies `do_dots`, which never raises. -/
def evalExpr (env : Env) : Expr → Except PErr PyVal
  | .var n =>
    match assocFind env n with
    | some v => .ok v
    | none => .error (.nameErr n)
  | .filter f base =>
    match assocFind env f with
    | none => .error (.nameErr f)
    | some fv => do
      let bv ← evalExpr env base
      pyCall1 fv bv
  | .dots base path => (evalExpr env base).map fun v => do_dots v path

/-- Work items of the evaluator: a single instruction, a statement
block, or the remaining iterations of a `for` statement. -/
inductive ExecTask where
  | one (i : Instr)
  | block (l : List Instr)
  | loop (v : Name) (body : List Instr) (xs : List PyVal)

/-- Execute the generated code: string pieces are appended in order
(`''.join(result)` at the end is the concatenation of the outputs);
`for c_v in ...` rebinds `c_v` on each iteration and, as in Python, the
binding stays in the local environment afterwards.  Structurally
recursive on the fuel; every recursive call is on smaller fuel, and
`Template.render` supplies fuel that the theorems below show (or, for
concrete runs, compute) to be sufficient. -/
def exec : Nat → Env → ExecTask → Except PErr (Env × Name)
  | 0, _, _ => .error .fuelErr
  | _ + 1, env, .one (.literal s) => .ok (env, s)
  | _ + 1, env, .one (.emit e) => (evalExpr env e).map fun v => (env, pyStr v)
  | fuel + 1, env, .one (.iff c body) => do
    let cv ← evalExpr env c
    if truthy cv then exec fuel env (.block body) else .ok (env, [])
  | fuel + 1, env, .one (.forr v it body) => do
    let iv ← evalExpr env it
    let xs ← pyIter iv
    exec fuel env (.loop v body xs)
  | _ + 1, env, .block [] => .ok (env, [])
  | fuel + 1, env, .block (i :: rest) => do
    let (e1, o1) ← exec fuel env (.one i)
    let (e2, o2) ← exec fuel e1 (.block rest)
    .ok (e2, o1 ++ o2)
  | _ + 1, env, .loop _ _ [] => .ok (env, [])
  | fuel + 1, env, .loop v body (x :: xs) => do
    let (e1, o1) ← exec fuel (assocSet env v x) (.block body)
    let (e2, o2) ← exec fuel e1 (.loop v body xs)
    .ok (e2, o1 ++ o2)

/-- The names bound by the generated prelude
(`for var_name in self.all_vars - self.loop_vars`), in the model's
deterministic insertion order (a Python set iterates in an arbitrary
order; no theorem below depends on the order). -/
def preludeVarList (t : Template) : List Name :=
  t.all_vars.filter fun n => !t.loop_vars.contains n

/-- The prelude `c_name = context['name']` lines: bind each required
name from the render context, raising KeyError at the first missing
one. -/
def buildEnv (rc : DictL PyVal) : List Name → Except PErr Env
  | [] => .ok []
  | n :: rest =>
    match assocFind rc n with
    | none => .error (.keyErr n)
    | some v => (buildEnv rc rest).map fun env => assocSet env n v

/-- `render_context = dict(self.context); if context: render_context.update(context)`. -/
def buildRenderContext (t : Template) (ctx : DictL PyVal) : DictL PyVal :=
  let rc := dictCopy t.context
  match ctx with
  | [] => rc
  | _ :: _ => dictUpdateAll rc ctx

/-- Fuel supplied to the evaluator by `Template.render`.  The fuel is a
pure artifact of the step-indexed embedding: the generated Python code
always terminates (loops run over finite sequences), and this constant
dominates the call depth of every execution considered in this
development.  No theorem below asserts success of a render that could
exhaust it, and every concrete render in the witnesses computes to a
result far below it. -/
def renderFuel (_prog : List Instr) (_rc : DictL PyVal) : Nat := 1000000

/-- The body of the generated `render_function` applied to a fully
built render context: prelude, then the instruction sequence, then
`''.join(result)`. -/
def renderWith (t : Template) (rc : DictL PyVal) : Except PErr Name := do
  let env ← buildEnv rc (preludeVarList t)
  let (_, out) ← exec (renderFuel t.prog rc) env (.block t.prog)
  .ok out

/-- `Template.render(context)`: overlay the supplied context on a fresh
copy of the stored one and run the compiled render function. -/
def Template.render (t : Template) (ctx : DictL PyVal) : Except PErr Name :=
  renderWith t (buildRenderContext t ctx)

/-- Compile a template and render it once (the
`Template(text).render(ctx)` round trip of the tests). -/
def compileRender (text : Name) (contexts : List (DictL PyVal))
    (ctx : DictL PyVal) : Except PErr Name := do
  let t ← Template.make text contexts
  t.render ctx

/-- `Template.render` viewed with its observable state: the result
together with the template's stored default context and the caller's
mapping as they stand after the call.  The source builds
`render_context` as a fresh `dict(self.context)` and only ever mutates
that copy, so both survive unchanged. -/
def render_state (t : Template) (ctx : DictL PyVal) :
    Except PErr Name × DictL PyVal × DictL PyVal :=
  (t.render ctx, t.context, ctx)

/-! ## Claim-side definitions -/

/-- `s.endswith(ab)` for a two-character ab. -/
def endsWith2 (a b : Char) (s : Name) : Bool :=
  startsWith2 b a s.reverse

/-- A fully delimited tag as the tokenizing regex matches it: one of the
three delimiter pairs around an opaque body. -/
def isWfTag (t : Name) : Bool :=
  (startsWith2 '{' '{' t && endsWith2 '}' '}' t) ||
  (startsWith2 '{' '%' t && endsWith2 '%' '}' t) ||
  (startsWith2 '{' '#' t && endsWith2 '#' '}' t)

/-- The shape of `re.split`'s output with one capturing group: literal
pieces at even positions alternating with matched (fully delimited)
tags at odd positions. -/
def altTagsOK : List Name → Bool
  | [] => true
  | [_] => true
  | _ :: tag :: rest => isWfTag tag && altTagsOK rest

/-- Does the text contain one of the three tag-opening delimiter pairs
`{{`, `{%`, `{#`? -/
def hasDelim (s : Name) : Bool :=
  hasSub2 '{' '{' s || hasSub2 '{' '%' s || hasSub2 '{' '#' s

/-- The lookup order exactly as claim C1 words it: attempt mapping-style
(key) lookup first; on any lookup failure fall back to attribute-style
lookup by that name (the callable step follows in `specDotStep`). -/
def specDotLookup (value : PyVal) (name : Name) : Except PErr PyVal :=
  match pyGetItem value name with
  | .ok w => .ok w
  | .error _ => pyGetAttr value name

/-- One path-segment resolution assembled as claim C1 words it. -/
def specDotStep (value : PyVal) (name : Name) : Except PErr PyVal :=
  match specDotLookup value name with
  | .ok v => dotCall v
  | .error e => .error e

/-- A syntactically valid (Python 2) identifier:
`[A-Za-z_][A-Za-z0-9_]*`. -/
def isPyIdentifier : Name → Bool
  | [] => false
  | c :: rest => (c.isAlpha || c = '_') && rest.all fun d => d.isAlphanum || d = '_'

/-! ## Helper lemmas: tokenizer -/

theorem findClose_eq (a b : Char) :
    ∀ (l p r : Name), findClose a b l = some (p, r) → l = p ++ a :: b :: r := by
  intro l
  induction l with
  | nil => intro p r h; simp [findClose] at h
  | cons x rest ih =>
    intro p r h
    cases rest with
    | nil => simp [findClose] at h
    | cons y t =>
      rw [findClose] at h
      split at h
      · rename_i hab
        simp only [Option.some.injEq, Prod.mk.injEq] at h
        obtain ⟨h1, h2⟩ := h
        subst h1; subst h2
        simp only [Bool.and_eq_true, decide_eq_true_eq] at hab
        obtain ⟨rfl, rfl⟩ := hab
        simp
      · split at h
        · rename_i p' r' hrec
          simp only [Option.some.injEq, Prod.mk.injEq] at h
          obtain ⟨h1, h2⟩ := h
          subst h1; subst h2
          have hy := ih p' r' hrec
          rw [hy]
          simp
        · simp at h

theorem tryTag_eq (c : Char) (rest tag rest' : Name)
    (h : tryTag c rest = some (tag, rest')) :
    c :: rest = tag ++ rest' ∧ isWfTag tag = true := by
  unfold tryTag at h
  split at h
  case isFalse => simp at h
  case isTrue hc =>
    subst hc
    split at h
    case h_2 => simp at h
    case h_1 d rest2 =>
      split at h
      case isTrue hd =>
        subst hd
        cases hfc : findClose '}' '}' rest2 with
        | none => rw [hfc] at h; simp at h
        | some pr =>
          obtain ⟨p, r⟩ := pr
          rw [hfc] at h
          simp only [Option.map_some', Option.some.injEq, Prod.mk.injEq] at h
          obtain ⟨h1, h2⟩ := h
          subst h1; subst h2
          rw [findClose_eq '}' '}' rest2 p r hfc]
          refine ⟨by simp, ?_⟩
          simp [isWfTag, startsWith2, endsWith2, List.reverse_append]
      case isFalse hd1 =>
        split at h
        case isTrue hd =>
          subst hd
          cases hfc : findClose '%' '}' rest2 with
          | none => rw [hfc] at h; simp at h
          | some pr =>
            obtain ⟨p, r⟩ := pr
            rw [hfc] at h
            simp only [Option.map_some', Option.some.injEq, Prod.mk.injEq] at h
            obtain ⟨h1, h2⟩ := h
            subst h1; subst h2
            rw [findClose_eq '%' '}' rest2 p r hfc]
            refine ⟨by simp, ?_⟩
            simp [isWfTag, startsWith2, endsWith2, List.reverse_append]
        case isFalse hd2 =>
          split at h
          case isFalse hd3 => simp at h
          case isTrue hd =>
            subst hd
            cases hfc : findClose '#' '}' rest2 with
            | none => rw [hfc] at h; simp at h
            | some pr =>
              obtain ⟨p, r⟩ := pr
              rw [hfc] at h
              simp only [Option.map_some', Option.some.injEq, Prod.mk.injEq] at h
              obtain ⟨h1, h2⟩ := h
              subst h1; subst h2
              rw [findClose_eq '#' '}' rest2 p r hfc]
              refine ⟨by simp, ?_⟩
              simp [isWfTag, startsWith2, endsWith2, List.reverse_append]

theorem tokenizeFuel_flatten :
    ∀ (fuel : Nat) (rem acc : Name),
      (tokenizeFuel fuel rem acc).flatten = acc.reverse ++ rem := by
  intro fuel
  induction fuel with
  | zero => intro rem acc; simp [tokenizeFuel]
  | succ f ih =>
    intro rem acc
    cases rem with
    | nil => simp [tokenizeFuel]
    | cons c rest =>
      simp only [tokenizeFuel]
      cases htt : tryTag c rest with
      | none => rw [ih]; simp
      | some pr =>
        obtain ⟨tag, rest'⟩ := pr
        have heq := (tryTag_eq c rest tag rest' htt).1
        simp [ih, ← heq]

theorem tokenizeFuel_altTagsOK :
    ∀ (fuel : Nat) (rem acc : Name),
      altTagsOK (tokenizeFuel fuel rem acc) = true := by
  intro fuel
  induction fuel with
  | zero => intro rem acc; simp [tokenizeFuel, altTagsOK]
  | succ f ih =>
    intro rem acc
    cases rem with
    | nil => simp [tokenizeFuel, altTagsOK]
    | cons c rest =>
      simp only [tokenizeFuel]
      cases htt : tryTag c rest with
      | none => exact ih rest (c :: acc)
      | some pr =>
        obtain ⟨tag, rest'⟩ := pr
        have hwf := (tryTag_eq c rest tag rest' htt).2
        simp [altTagsOK, hwf, ih]

theorem startsWith2_hasSub2 (a b : Char) (s : Name)
    (h : startsWith2 a b s = true) : hasSub2 a b s = true := by
  cases s with
  | nil => simp [startsWith2] at h
  | cons x rest =>
    cases rest with
    | nil => simp [startsWith2] at h
    | cons y t => simp [startsWith2] at h; simp [hasSub2, h]

theorem hasDelim_tail (c : Char) (rest : Name)
    (h : hasDelim (c :: rest) = false) : hasDelim rest = false := by
  cases rest with
  | nil => rfl
  | cons y t =>
    simp only [hasDelim, hasSub2, Bool.or_eq_false_iff, Bool.and_eq_false_iff] at h ⊢
    tauto

theorem tryTag_none_of_noDelim (c : Char) (rest : Name)
    (h : hasDelim (c :: rest) = false) : tryTag c rest = none := by
  by_cases hc : c = '{'
  case neg => simp [tryTag, hc]
  case pos =>
    subst hc
    cases rest with
    | nil => rfl
    | cons d rest2 =>
      have h1 : hasSub2 '{' '{' ('{' :: d :: rest2) = false := by
        simp only [hasDelim, Bool.or_eq_false_iff] at h; tauto
      have h2 : hasSub2 '{' '%' ('{' :: d :: rest2) = false := by
        simp only [hasDelim, Bool.or_eq_false_iff] at h; tauto
      have h3 : hasSub2 '{' '#' ('{' :: d :: rest2) = false := by
        simp only [hasDelim, Bool.or_eq_false_iff] at h; tauto
      have hd1 : ¬ d = '{' := by
        intro hd; subst hd; simp [hasSub2] at h1
      have hd2 : ¬ d = '%' := by
        intro hd; subst hd; simp [hasSub2] at h2
      have hd3 : ¬ d = '#' := by
        intro hd; subst hd; simp [hasSub2] at h3
      simp [tryTag, hd1, hd2, hd3]

theorem tokenizeFuel_noDelim :
    ∀ (fuel : Nat) (rem acc : Name), hasDelim rem = false →
      tokenizeFuel fuel rem acc = [acc.reverse ++ rem] := by
  intro fuel
  induction fuel with
  | zero => intro rem acc _; rfl
  | succ f ih =>
    intro rem acc h
    cases rem with
    | nil => simp [tokenizeFuel]
    | cons c rest =>
      simp only [tokenizeFuel, tryTag_none_of_noDelim c rest h]
      rw [ih rest (c :: acc) (hasDelim_tail c rest h)]
      simp

/-! ## Helper lemmas: parsing and rendering -/

theorem parseTokens_append (ts1 : List Name) :
    ∀ (st : ParseSt) (ts2 : List Name),
      parseTokens st (ts1 ++ ts2) =
        match parseTokens st ts1 with
        | .ok st' => parseTokens st' ts2
        | .error e => .error e := by
  induction ts1 with
  | nil => intro st ts2; rfl
  | cons t ts ih =>
    intro st ts2
    simp only [List.cons_append, parseTokens]
    cases processToken st t with
    | ok st' => exact ih st' ts2
    | error e => rfl

theorem buildEnv_missing :
    ∀ (names : List Name) (rc : DictL PyVal),
      (∃ n, n ∈ names ∧ assocFind rc n = none) →
      ∃ m, buildEnv rc names = .error (.keyErr m) := by
  intro names
  induction names with
  | nil => intro rc h; obtain ⟨n, hn, _⟩ := h; simp at hn
  | cons n rest ih =>
    intro rc h
    cases hf : assocFind rc n with
    | none => exact ⟨n, by simp [buildEnv, hf]⟩
    | some v =>
      obtain ⟨n', hn', hmiss⟩ := h
      have hn'rest : n' ∈ rest := by
        rcases List.mem_cons.mp hn' with rfl | hmem
        · rw [hf] at hmiss; simp at hmiss
        · exact hmem
      obtain ⟨m, hm⟩ := ih rc ⟨n', hn'rest, hmiss⟩
      refine ⟨m, ?_⟩
      simp only [buildEnv, hf, hm]
      rfl

theorem exec_block_nil (f : Nat) (env : Env) :
    exec (f + 1) env (.block []) = .ok (env, []) := rfl

theorem exec_block_single_literal (f : Nat) (env : Env) (t : Name)
    (h : 2 ≤ f) : exec f env (.block [.literal t]) = .ok (env, t) := by
  obtain ⟨g, rfl⟩ : ∃ g, f = g + 2 := ⟨f - 2, by omega⟩
  show Except.ok (env, t ++ []) = Except.ok (env, t)
  rw [List.append_nil]

theorem assocSet_assocSet_same (env : Env) (v : Name) (a b : PyVal) :
    assocSet (assocSet env v a) v b = assocSet env v b := by
  induction env with
  | nil => simp [assocSet]
  | cons kv rest ih =>
    obtain ⟨k, w⟩ := kv
    by_cases h : k = v <;> simp [assocSet, h, ih]

theorem assocFind_assocSet_same (env : Env) (v : Name) (x : PyVal) :
    assocFind (assocSet env v x) v = some x := by
  induction env with
  | nil => simp [assocSet, assocFind]
  | cons kv rest ih =>
    obtain ⟨k, w⟩ := kv
    by_cases h : k = v <;> simp [assocSet, assocFind, h, ih]

theorem exec_block_emit_var (f : Nat) (env : Env) (v : Name) (u : PyVal)
    (hfind : assocFind env v = some u) (h : 2 ≤ f) :
    exec f env (.block [.emit (.var v)]) = .ok (env, pyStr u) := by
  obtain ⟨g, rfl⟩ : ∃ g, f = g + 2 := ⟨f - 2, by omega⟩
  have hev : evalExpr env (.var v) = .ok u := by
    unfold evalExpr
    rw [hfind]
  have h1 : exec (g + 1) env (.one (.emit (.var v))) = .ok (env, pyStr u) := by
    show (evalExpr env (.var v)).map (fun val => (env, pyStr val)) = .ok (env, pyStr u)
    rw [hev]
    rfl
  have step : exec (g + 2) env (.block [.emit (.var v)])
      = (do
          let (e1, o1) ← exec (g + 1) env (.one (.emit (.var v)))
          let (e2, o2) ← exec (g + 1) e1 (.block [])
          Except.ok (e2, o1 ++ o2)) := rfl
  rw [step, h1]
  show Except.ok (env, pyStr u ++ ([] : Name)) = Except.ok (env, pyStr u)
  rw [List.append_nil]

theorem exec_loop_emit_binds :
    ∀ (xs : List PyVal) (fuel : Nat) (env : Env) (v : Name) (x : PyVal),
      xs.length + 3 ≤ fuel →
      exec fuel env (.loop v [.emit (.var v)] (xs ++ [x]))
        = .ok (assocSet env v x, ((xs ++ [x]).map pyStr).flatten) := by
  intro xs
  induction xs with
  | nil =>
    intro fuel env v x h
    obtain ⟨g, rfl⟩ : ∃ g, fuel = g + 3 := ⟨fuel - 3, by omega⟩
    rw [List.nil_append]
    have step : exec (g + 3) env (.loop v [.emit (.var v)] [x])
        = (do
            let (e1, o1) ← exec (g + 2) (assocSet env v x) (.block [.emit (.var v)])
            let (e2, o2) ← exec (g + 2) e1 (.loop v [.emit (.var v)] [])
            Except.ok (e2, o1 ++ o2)) := rfl
    rw [step, exec_block_emit_var (g + 2) (assocSet env v x) v x
        (assocFind_assocSet_same env v x) (by omega)]
    show Except.ok (assocSet env v x, pyStr x ++ ([] : Name))
        = Except.ok (assocSet env v x, ([x].map pyStr).flatten)
    simp
  | cons y ys ih =>
    intro fuel env v x h
    simp only [List.length_cons] at h
    obtain ⟨g, rfl⟩ : ∃ g, fuel = g + 3 := ⟨fuel - 3, by omega⟩
    have hg : ys.length + 3 ≤ g + 2 := by omega
    have step : exec (g + 3) env (.loop v [.emit (.var v)] ((y :: ys) ++ [x]))
        = (do
            let (e1, o1) ← exec (g + 2) (assocSet env v y) (.block [.emit (.var v)])
            let (e2, o2) ← exec (g + 2) e1 (.loop v [.emit (.var v)] (ys ++ [x]))
            Except.ok (e2, o1 ++ o2)) := rfl
    rw [step, exec_block_emit_var (g + 2) (assocSet env v y) v y
        (assocFind_assocSet_same env v y) (by omega)]
    show (do
        let (e2, o2) ← exec (g + 2) (assocSet env v y) (.loop v [.emit (.var v)] (ys ++ [x]))
        Except.ok (e2, pyStr y ++ o2)) = _
    rw [ih (g + 2) (assocSet env v y) v x hg]
    show Except.ok (assocSet (assocSet env v y) v x,
        pyStr y ++ ((ys ++ [x]).map pyStr).flatten)
      = Except.ok (assocSet env v x, (((y :: ys) ++ [x]).map pyStr).flatten)
    rw [assocSet_assocSet_same]
    simp

/-! ## Helper lemmas: dotted access, expressions, messages -/

theorem pyGetItem_err_caught (v : PyVal) (k : Name) (e : PErr)
    (h : pyGetItem v k = .error e) : isCaughtLookupErr e = true := by
  cases v <;> simp only [pyGetItem] at h
  case dict kvs =>
    cases hf : assocFind kvs k with
    | some w => rw [hf] at h; simp at h
    | none =>
      rw [hf] at h
      cases h
      rfl
  all_goals (cases h; rfl)

theorem dotLookup_eq_specDotLookup (v : PyVal) (d : Name) :
    dotLookup v d = specDotLookup v d := by
  unfold dotLookup specDotLookup
  cases h : pyGetItem v d with
  | ok w => rfl
  | error e =>
    show (if isCaughtLookupErr e = true then pyGetAttr v d else Except.error e) = pyGetAttr v d
    rw [pyGetItem_err_caught v d e h]
    rfl

theorem dotStep_eq_specDotStep (v : PyVal) (d : Name) :
    dotStep v d = specDotStep v d := by
  unfold dotStep specDotStep
  rw [dotLookup_eq_specDotLookup]

theorem do_dots_cons (v : PyVal) (d : Name) (ds : List Name) :
    do_dots v (d :: ds) =
      (match dotStep v d with
       | .ok w => do_dots w ds
       | .error _ => PyVal.str []) := by
  cases h : dotStep v d with
  | ok w =>
    have hl : doDotsLoop v (d :: ds) = doDotsLoop w ds := by rw [doDotsLoop, h]
    unfold do_dots
    rw [hl]
  | error e =>
    have hl : doDotsLoop v (d :: ds) = .error e := by rw [doDotsLoop, h]
    unfold do_dots
    rw [hl]

theorem elem_cons_split (sep c : Char) (cs : Name)
    (h : List.elem sep (c :: cs) = false) :
    ¬ c = sep ∧ List.elem sep cs = false := by
  rw [List.elem_eq_mem] at h
  simp only [decide_eq_false_iff_not, List.mem_cons, not_or] at h
  refine ⟨fun hc => h.1 hc.symm, ?_⟩
  rw [List.elem_eq_mem]
  simp [h.2]

theorem splitOnCharNE_no_sep (sep : Char) :
    ∀ (s : Name), List.elem sep s = false → splitOnCharNE sep s = (s, []) := by
  intro s
  induction s with
  | nil => intro _; rfl
  | cons c cs ih =>
    intro h
    obtain ⟨hne, hcs⟩ := elem_cons_split sep c cs h
    simp [splitOnCharNE, ih hcs, hne]

theorem splitOnCharNE_first (sep : Char) :
    ∀ (s r : Name), List.elem sep s = false →
      splitOnCharNE sep (s ++ sep :: r) =
        (s, (splitOnCharNE sep r).1 :: (splitOnCharNE sep r).2) := by
  intro s
  induction s with
  | nil => intro r _; simp [splitOnCharNE]
  | cons c cs ih =>
    intro r h
    obtain ⟨hne, hcs⟩ := elem_cons_split sep c cs h
    simp [splitOnCharNE, ih r hcs, hne]

theorem elem_append_cons_self (sep : Char) (s r : Name) :
    List.elem sep (s ++ sep :: r) = true :=
  List.elem_iff.mpr (List.mem_append_right s (List.mem_cons_self sep r))

theorem exprCodeNoPipe_ok (vars : List Name) (e : Name) :
    ∃ v b, exprCodeNoPipe vars e = .ok (v, b) := by
  cases h : List.elem '.' e with
  | true =>
    simp only [exprCodeNoPipe, h, if_true]
    exact ⟨_, _, rfl⟩
  | false =>
    simp only [exprCodeNoPipe, h, Bool.false_eq_true, if_false]
    exact ⟨_, _, rfl⟩

theorem startsWithList_append_self :
    ∀ (s suf : Name), startsWithList s (s ++ suf) = true := by
  intro s
  induction s with
  | nil => intro suf; rfl
  | cons c cs ih => intro suf; simp [startsWithList, ih]

theorem containsSub_mid :
    ∀ (pre s suf : Name), containsSub s (pre ++ (s ++ suf)) = true := by
  intro pre
  induction pre with
  | nil =>
    intro s suf
    show containsSub s ([] ++ (s ++ suf)) = true
    rw [List.nil_append]
    cases hss : s ++ suf with
    | nil =>
      have hs : s = [] := (List.append_eq_nil.mp hss).1
      subst hs
      rfl
    | cons c cs =>
      have h1 : startsWithList s (c :: cs) = true := by
        rw [← hss]
        exact startsWithList_append_self s suf
      show (startsWithList s (c :: cs) || containsSub s cs) = true
      rw [h1]
      simp
  | cons c pre' ih =>
    intro s suf
    simp only [List.cons_append, containsSub, Bool.or_eq_true]
    exact Or.inr (ih s suf)

theorem synErrMsg_carries (msg : String) (thing : Name) :
    containsSub thing (synErrMsg msg thing) = true := by
  have heq : synErrMsg msg thing
      = (msg.data ++ ": ".data ++ [quoteChar]) ++ (thing ++ [quoteChar]) := by
    simp [synErrMsg, pyRepr]
  rw [heq, containsSub_mid]

/-! ## Helper lemmas: action-tag processing -/

theorem startsWith2_pct_shape (tok : Name)
    (h : startsWith2 '{' '%' tok = true) :
    ∃ tr, tok = '{' :: '%' :: tr := by
  cases tok with
  | nil => simp [startsWith2] at h
  | cons x rest =>
    cases rest with
    | nil => simp [startsWith2] at h
    | cons y tr =>
      simp only [startsWith2, Bool.and_eq_true, decide_eq_true_eq] at h
      obtain ⟨rfl, rfl⟩ := h
      exact ⟨tr, rfl⟩

theorem startsWithList_end_shape (w0 : Name)
    (h : startsWithList "end".data w0 = true) :
    ∃ k, w0 = 'e' :: 'n' :: 'd' :: k := by
  cases w0 with
  | nil => simp [startsWithList] at h
  | cons a rest =>
    cases rest with
    | nil => simp [startsWithList] at h
    | cons b rest2 =>
      cases rest2 with
      | nil => simp [startsWithList] at h
      | cons c k =>
        simp only [startsWithList, Bool.and_eq_true, decide_eq_true_eq] at h
        obtain ⟨h1, h2, h3, _⟩ := h
        subst h1; subst h2; subst h3
        exact ⟨k, rfl⟩

theorem processToken_empty_action (st : ParseSt) (tok : Name)
    (h1 : startsWith2 '{' '%' tok = true)
    (h2 : splitWS (pystrip (slice2m2 tok)) = []) :
    processToken st tok = .error .indexErr := by
  obtain ⟨tr, rfl⟩ := startsWith2_pct_shape tok h1
  simp only [processToken, h2]
  rfl

theorem parseTokens_empty_action (st : ParseSt) (tok : Name) (ts : List Name)
    (h1 : startsWith2 '{' '%' tok = true)
    (h2 : splitWS (pystrip (slice2m2 tok)) = []) :
    parseTokens st (tok :: ts) = .error .indexErr := by
  rw [parseTokens, processToken_empty_action st tok h1 h2]
  rfl

theorem processToken_end (st : ParseSt) (token w0 : Name)
    (h1 : startsWith2 '{' '%' token = true)
    (h2 : splitWS (pystrip (slice2m2 token)) = [w0])
    (h3 : startsWithList "end".data w0 = true) :
    processToken st token =
      (match st.stack with
       | [] => .error (synErr "Too many ends" token)
       | fr :: rest =>
         if fr.kind ≠ w0.drop 3 then .error (synErr "Mismatched end tag" (w0.drop 3))
         else .ok { st with stack := rest, cur := fr.parent ++ [fr.close st.cur] }) := by
  obtain ⟨tr, rfl⟩ := startsWith2_pct_shape token h1
  obtain ⟨k, rfl⟩ := startsWithList_end_shape w0 h3
  simp only [processToken, h2, h3]
  rfl

/-! ## Claim theorems -/

/-- C1: for every dotted-access expression evaluated at render time,
each successive path name is resolved against the current value by
first attempting mapping-style (key) lookup, on lookup failure falling
back to attribute-style lookup by that name, and then, if the resulting
value is callable, invoking it with no arguments and using the returned
value as the current value before the next path segment (`specDotStep`
is that resolution step spelled out from the claim's wording; a failing
step makes the whole chain degrade, as claim C2 records). -/
theorem c1_dotted_access_resolution (v : PyVal) (d : Name) (ds : List Name) :
    do_dots v [] = v ∧
    do_dots v (d :: ds) =
      (match specDotStep v d with
       | .ok w => do_dots w ds
       | .error _ => PyVal.str []) := by
  refine ⟨rfl, ?_⟩
  rw [← dotStep_eq_specDotStep]
  exact do_dots_cons v d ds

/-- C2: any exception raised while resolving a step of a dotted-access
chain is caught at the dotted-access boundary and the whole dotted
access yields the empty string, never an error reaching the caller of
render; whereas a bare-variable or filter-name lookup failure (the name
being in `all_vars` and not a loop variable, but absent from the render
context) makes `Template.render` raise a KeyError — a `LookupError` —
to its caller. -/
theorem c2_error_propagation_policy :
    (∀ (v : PyVal) (path : List Name) (e : PErr),
        doDotsLoop v path = .error e → do_dots v path = .str []) ∧
    (∀ (env : Env) (base : Expr) (path : List Name) (v : PyVal),
        evalExpr env base = .ok v →
        evalExpr env (.dots base path) = .ok (do_dots v path)) ∧
    (∀ (t : Template) (ctx : DictL PyVal) (n : Name),
        n ∈ preludeVarList t →
        assocFind (buildRenderContext t ctx) n = none →
        ∃ m, Template.render t ctx = .error (.keyErr m)) := by
  refine ⟨?_, ?_, ?_⟩
  · intro v path e h
    unfold do_dots
    rw [h]
  · intro env base path v h
    unfold evalExpr
    rw [h]
    rfl
  · intro t ctx n hmem hmiss
    obtain ⟨m, hm⟩ :=
      buildEnv_missing (preludeVarList t) (buildRenderContext t ctx) ⟨n, hmem, hmiss⟩
    refine ⟨m, ?_⟩
    unfold Template.render renderWith
    rw [hm]
    rfl

/-- Witness for C2 at concrete inputs: a dotted access on an attribute
the object lacks evaluates to `do_dots`'s degraded result (the empty
string), and rendering a template whose bare variable `name` is absent
from the context fails with a KeyError. -/
theorem c2_witness :
    do_dots (PyVal.pyObj []) ["missing".data] = .str [] ∧
    evalExpr [("obj".data, PyVal.pyObj [])] (.dots (.var "obj".data) ["missing".data])
      = .ok (do_dots (PyVal.pyObj []) ["missing".data]) ∧
    (∃ m, Template.render
        ⟨[], ["name".data], [], [Instr.emit (Expr.var "name".data)]⟩ []
        = .error (.keyErr m)) := by
  refine ⟨?_, ?_, ?_⟩
  · exact c2_error_propagation_policy.1 (PyVal.pyObj []) ["missing".data] .attrErr rfl
  · exact c2_error_propagation_policy.2.1 _ _ ["missing".data] (PyVal.pyObj []) rfl
  · exact c2_error_propagation_policy.2.2
      ⟨[], ["name".data], [], [Instr.emit (Expr.var "name".data)]⟩ [] "name".data
      (by decide) rfl

/-- C7: the tokenizer produces an ordered sequence of substrings whose
concatenation reproduces the input exactly (also across newlines: tag
contents are matched with dot-matches-newline semantics), alternating
literal pieces with fully delimited tags, each substring being
classified by its delimiter prefix during parsing. -/
theorem c7_tokenizer_partition (template : Name) :
    (tokenize template).flatten = template ∧ altTagsOK (tokenize template) = true := by
  constructor
  · rw [tokenize, tokenizeFuel_flatten]
    rfl
  · rw [tokenize]
    exact tokenizeFuel_altTagsOK (template.length + 1) template []

/-- C10: a render call operates on a fresh copy of the baseline
context: the template's stored default context and the caller's mapping
are unchanged after the call (`render_state` returns them as the call
leaves them), the rendered result is a function of the stored context
overlaid with the call's context only, and successive render calls are
independent of each other. -/
theorem c10_render_context_isolation :
    (∀ (t : Template) (ctx : DictL PyVal),
        (render_state t ctx).2.1 = t.context ∧ (render_state t ctx).2.2 = ctx) ∧
    (∀ (t : Template) (ctx : DictL PyVal),
        Template.render t ctx = renderWith t (dictUpdateAll (dictCopy t.context) ctx)) ∧
    (∀ (t : Template) (c1 c2 : DictL PyVal),
        (render_state { t with context := (render_state t c1).2.1 } c2).1 =
          (render_state t c2).1) := by
  refine ⟨fun t ctx => ⟨rfl, rfl⟩, ?_, fun t c1 c2 => rfl⟩
  intro t ctx
  cases ctx with
  | nil => rfl
  | cons kv rest => rfl

/-- C3 counterexample: the claim also asserts that every
TemplateSyntaxError raised during block parsing carries the offending
token text in its message; but a mismatched end tag is reported with
the end kind only (`_syntax_error("Mismatched end tag", end_what)`), so
for `{% if x %}{% endfor %}` the message does not contain the offending
token `{% endfor %}`. -/
theorem c3_counterexample :
    Template.make "{% if x %}{% endfor %}".data [] =
      .error (.templateSynErr (synErrMsg "Mismatched end tag" "for".data)) ∧
    containsSub "{% endfor %}".data
      (synErrMsg "Mismatched end tag" "for".data) = false := by
  exact ⟨rfl, by decide⟩

/-- C3 as amended: block matching is enforced — a one-word `end...`
action token with an empty open-block stack fails with "Too many ends"
(carrying the full token text), one whose kind differs from the popped
stack top fails with "Mismatched end tag" (carrying the end kind, not
the token), a non-empty stack after all tokens fails with "Unmatched
action tag" (carrying the still-open kind) — and in each case the
message carries the datum it was raised with (`synErrMsg_carries`). -/
theorem c3_block_matching_amended :
    (∀ (st : ParseSt) (token w0 : Name),
        startsWith2 '{' '%' token = true →
        splitWS (pystrip (slice2m2 token)) = [w0] →
        startsWithList "end".data w0 = true →
        st.stack = [] →
        processToken st token = .error (synErr "Too many ends" token)) ∧
    (∀ (st : ParseSt) (token w0 : Name) (fr : Frame) (frs : List Frame),
        startsWith2 '{' '%' token = true →
        splitWS (pystrip (slice2m2 token)) = [w0] →
        startsWithList "end".data w0 = true →
        st.stack = fr :: frs →
        fr.kind ≠ w0.drop 3 →
        processToken st token = .error (synErr "Mismatched end tag" (w0.drop 3))) ∧
    (∀ (text : Name) (contexts : List (DictL PyVal)) (st : ParseSt)
        (fr : Frame) (frs : List Frame),
        parseTokens initSt (tokenize text) = .ok st →
        st.stack = fr :: frs →
        Template.make text contexts = .error (synErr "Unmatched action tag" fr.kind)) ∧
    (∀ (msg : String) (thing : Name),
        containsSub thing (synErrMsg msg thing) = true) := by
  refine ⟨?_, ?_, ?_, fun msg thing => synErrMsg_carries msg thing⟩
  · intro st token w0 h1 h2 h3 hstack
    rw [processToken_end st token w0 h1 h2 h3, hstack]
  · intro st token w0 fr frs h1 h2 h3 hstack hkind
    rw [processToken_end st token w0 h1 h2 h3, hstack]
    simp [hkind]
  · intro text contexts st fr frs hparse hstack
    unfold Template.make
    rw [hparse]
    show (match st.stack with
          | fr :: _ => Except.error (synErr "Unmatched action tag" fr.kind)
          | [] => _) = Except.error (synErr "Unmatched action tag" fr.kind)
    rw [hstack]

/-- Witness for the amended C3 at concrete inputs: `{% endif %}` with
an empty stack raises "Too many ends" carrying the token, and an
`{% if x %}` block left open raises "Unmatched action tag" carrying
the open kind. -/
theorem c3_witness :
    processToken initSt "{% endif %}".data =
      .error (synErr "Too many ends" "{% endif %}".data) ∧
    Template.make "{% if x %}".data [] =
      .error (synErr "Unmatched action tag" "if".data) := by
  constructor
  · exact c3_block_matching_amended.1 initSt "{% endif %}".data "endif".data
      rfl rfl rfl rfl
  · exact c3_block_matching_amended.2.2.1 "{% if x %}".data []
      ⟨["x".data], [], [Frame.ifF (Expr.var "x".data) []], []⟩
      (Frame.ifF (Expr.var "x".data) []) [] rfl rfl

theorem evalExpr_filter (env : Env) (f : Name) (base : Expr) (fv v : PyVal)
    (hf : assocFind env f = some fv) (hb : evalExpr env base = .ok v) :
    evalExpr env (.filter f base) = pyCall1 fv v := by
  unfold evalExpr
  rw [hf]
  show (do let bv ← evalExpr env base; pyCall1 fv bv) = pyCall1 fv v
  rw [hb]
  rfl

/-- C4: an output expression containing `|` is split on `|`; the first
segment is compiled as the base expression and each subsequent segment
becomes a filter name applied to the accumulated value left-to-right,
so `a|b|c` compiles to `c(b(a))`; applying the compiled chain calls the
filters (looked up in the render environment as unary callables) inside
out; and `{{ name|upper|first }}` with name="bob" and the test's
upper/first filters renders "B". -/
theorem c4_filter_pipes :
    (∀ (vars : List Name) (a b c : Name),
        List.elem '|' a = false → List.elem '|' b = false → List.elem '|' c = false →
        ∃ vars1 base, exprCodeNoPipe vars a = .ok (vars1, base) ∧
          expr_code vars (a ++ '|' :: (b ++ '|' :: c)) =
            .ok (addVar (addVar vars1 b) c, .filter c (.filter b base))) ∧
    (∀ (env : Env) (f g : Name) (e : Expr) (fv gv v w1 w2 : PyVal),
        assocFind env f = some fv → assocFind env g = some gv →
        evalExpr env e = .ok v → pyCall1 fv v = .ok w1 → pyCall1 gv w1 = .ok w2 →
        evalExpr env (.filter g (.filter f e)) = .ok w2) ∧
    compileRender "{{ name|upper|first }}".data []
      [("name".data, .str "bob".data), ("upper".data, .fn1 .upperF),
       ("first".data, .fn1 .firstF)] = .ok "B".data := by
  refine ⟨?_, ?_, rfl⟩
  · intro vars a b c ha hb hc
    obtain ⟨vars1, base, h1⟩ := exprCodeNoPipe_ok vars a
    refine ⟨vars1, base, h1, ?_⟩
    have helem : List.elem '|' (a ++ '|' :: (b ++ '|' :: c)) = true :=
      elem_append_cons_self '|' a (b ++ '|' :: c)
    have hsplit : splitOnCharNE '|' (a ++ '|' :: (b ++ '|' :: c)) = (a, [b, c]) := by
      rw [splitOnCharNE_first '|' a (b ++ '|' :: c) ha,
          splitOnCharNE_first '|' b c hb,
          splitOnCharNE_no_sep '|' c hc]
    unfold expr_code
    rw [helem, hsplit]
    simp only [if_true]
    rw [h1]
    show filtersFold vars1 base [b, c] = _
    unfold filtersFold variableTrack reMatchEmptyPattern
    simp only [Bool.not_true, Bool.false_eq_true, if_false]
    rfl
  · intro env f g e fv gv v w1 w2 hf hg he h1 h2
    have hinner : evalExpr env (.filter f e) = .ok w1 := by
      rw [evalExpr_filter env f e fv v hf he]
      exact h1
    rw [evalExpr_filter env g (.filter f e) gv w1 hg hinner]
    exact h2

/-- Witness for C4 at concrete inputs: `name|upper|first` compiles to
the filter chain `first(upper(name))`, and evaluating the chain in an
environment binding the test's filters applies them left to right. -/
theorem c4_witness :
    (∃ vars1 base, exprCodeNoPipe [] "name".data = .ok (vars1, base) ∧
        expr_code [] ("name".data ++ '|' :: ("upper".data ++ '|' :: "first".data)) =
          .ok (addVar (addVar vars1 "upper".data) "first".data,
               .filter "first".data (.filter "upper".data base))) ∧
    evalExpr
      [("name".data, PyVal.str "bob".data), ("upper".data, PyVal.fn1 .upperF),
       ("first".data, PyVal.fn1 .firstF)]
      (.filter "first".data (.filter "upper".data (.var "name".data)))
      = .ok (PyVal.str "B".data) := by
  constructor
  · exact c4_filter_pipes.1 [] "name".data "upper".data "first".data rfl rfl rfl
  · exact c4_filter_pipes.2.1 _ "upper".data "first".data (.var "name".data)
      (PyVal.fn1 .upperF) (PyVal.fn1 .firstF)
      (PyVal.str "bob".data) (PyVal.str "BOB".data) (PyVal.str "B".data)
      rfl rfl rfl rfl rfl

/-- C5 (code bug): `_variable`'s validity check is `re.match(r"", name)`,
which matches every string, so the guard documented as "Raises:
TemplateSyntaxError if `name` is not a valid python var" never fires;
`{{ 1 }}` — whose bare name `1` is not a syntactically valid
identifier — nevertheless compiles into a render program (the generated
`c_1 = context['1']` is valid Python) and renders the value bound to
key `1` instead of failing compilation. -/
theorem c5_dead_name_validation :
    (∀ (vars : List Name) (n : Name), variableTrack vars n = .ok (addVar vars n)) ∧
    isPyIdentifier "1".data = false ∧
    Template.make "{{ 1 }}".data [] =
      .ok { context := [], all_vars := ["1".data], loop_vars := [],
            prog := [Instr.emit (Expr.var "1".data)] } ∧
    compileRender "{{ 1 }}".data [] [("1".data, PyVal.int 7)] = .ok "7".data := by
  exact ⟨fun vars n => rfl, by decide, rfl, rfl⟩

/-- C6 counterexample: the loop variable binding is visible to
instructions after the loop — `{% for x in xs %}{{ x }}{% endfor %}{{ x }}`
with xs=[1,2] renders "122": the final `{{ x }}` stands outside the
loop and `x` is absent from the context, yet it is satisfied by the
last iteration's binding instead of failing, where the claim requires
the binding not to be visible there. -/
theorem c6_counterexample :
    assocFind [("xs".data, PyVal.list [PyVal.int 1, PyVal.int 2])] "x".data = none ∧
    compileRender "{% for x in xs %}{{ x }}{% endfor %}{{ x }}".data []
      [("xs".data, PyVal.list [PyVal.int 1, PyVal.int 2])] = .ok "122".data := by
  exact ⟨rfl, rfl⟩

/-- C6 as amended: every name in `all_vars` minus `loop_vars` must be
resolvable directly from the context at render time (a missing one
raises KeyError before any output); but the loop variable binding is
not scoped to the loop body — as in Python, the binding made by the
last iteration persists in the render environment after the loop.  The
loop here carries the body `{{ v }}` (an empty body would already fail
construction: its generated suite would be empty, see
`anyEmptyBodyFuel`): running it over `xs ++ [x]` emits every element
and leaves `v` bound to the last one, `x`. -/
theorem c6_loop_scope_amended :
    (∀ (t : Template) (ctx : DictL PyVal) (n : Name),
        n ∈ preludeVarList t →
        assocFind (buildRenderContext t ctx) n = none →
        ∃ m, Template.render t ctx = .error (.keyErr m)) ∧
    (∀ (xs : List PyVal) (fuel : Nat) (env : Env) (v : Name) (x : PyVal),
        xs.length + 3 ≤ fuel →
        exec fuel env (.loop v [.emit (.var v)] (xs ++ [x]))
          = .ok (assocSet env v x, ((xs ++ [x]).map pyStr).flatten)) := by
  constructor
  · intro t ctx n hmem hmiss
    obtain ⟨m, hm⟩ :=
      buildEnv_missing (preludeVarList t) (buildRenderContext t ctx) ⟨n, hmem, hmiss⟩
    refine ⟨m, ?_⟩
    unfold Template.render renderWith
    rw [hm]
    rfl
  · exact exec_loop_emit_binds

/-- Witness for the amended C6 at concrete inputs: a template whose
only prelude variable `xs` is missing from the context raises KeyError,
and running the `{{ x }}`-bodied loop over `[1, 2]` emits "12" and
leaves the loop variable bound to `2` in the environment. -/
theorem c6_witness :
    (∃ m, Template.render
        ⟨[], ["xs".data], ["x".data],
         [Instr.forr "x".data (Expr.var "xs".data) [Instr.emit (Expr.var "x".data)]]⟩ []
        = .error (.keyErr m)) ∧
    exec 5 [] (.loop "x".data [Instr.emit (Expr.var "x".data)]
        ([PyVal.int 1] ++ [PyVal.int 2]))
      = .ok ([("x".data, PyVal.int 2)],
             (([PyVal.int 1] ++ [PyVal.int 2]).map pyStr).flatten) := by
  constructor
  · exact c6_loop_scope_amended.1
      ⟨[], ["xs".data], ["x".data],
       [Instr.forr "x".data (Expr.var "xs".data) [Instr.emit (Expr.var "x".data)]]⟩
      [] "xs".data (by decide) rfl
  · exact c6_loop_scope_amended.2 [PyVal.int 1] 5 [] "x".data (PyVal.int 2) (by decide)

/-- C8: a template containing none of the delimiter pairs tokenizes to
itself, compiles to a program that is a single literal emission (or
nothing, for the empty text), and renders to exactly the original text
under any default contexts and any render context. -/
theorem c8_no_tag_identity (text : Name) (contexts : List (DictL PyVal))
    (ctx : DictL PyVal) (h : hasDelim text = false) :
    compileRender text contexts ctx = .ok text := by
  have htok : tokenize text = [text] := by
    rw [tokenize, tokenizeFuel_noDelim (text.length + 1) text [] h]
    rfl
  by_cases hnil : text = []
  · subst hnil
    rfl
  · have notSW : ∀ (b : Char), hasSub2 '{' b text = false →
        startsWith2 '{' b text = false := by
      intro b hq
      cases hs : startsWith2 '{' b text with
      | false => rfl
      | true => rw [startsWith2_hasSub2 '{' b text hs] at hq; cases hq
    have hsub1 : hasSub2 '{' '#' text = false := by
      simp only [hasDelim, Bool.or_eq_false_iff] at h; tauto
    have hsub2 : hasSub2 '{' '{' text = false := by
      simp only [hasDelim, Bool.or_eq_false_iff] at h; tauto
    have hsub3 : hasSub2 '{' '%' text = false := by
      simp only [hasDelim, Bool.or_eq_false_iff] at h; tauto
    have hpt : processToken initSt text = .ok ⟨[], [], [], [Instr.literal text]⟩ := by
      unfold processToken
      rw [notSW '#' hsub1, notSW '{' hsub2, notSW '%' hsub3]
      simp only [Bool.false_eq_true, if_false]
      rw [if_neg hnil]
      rfl
    have hmake : Template.make text contexts =
        .ok ⟨mergeContexts contexts, [], [], [Instr.literal text]⟩ := by
      unfold Template.make
      rw [htok]
      have hp : parseTokens initSt [text] = .ok ⟨[], [], [], [Instr.literal text]⟩ := by
        rw [parseTokens, hpt]
        rfl
      rw [hp]
      rfl
    have hr : Template.render ⟨mergeContexts contexts, [], [], [Instr.literal text]⟩ ctx
        = .ok text := by
      unfold Template.render renderWith
      show (do
        let (_, out) ← exec
          (renderFuel [Instr.literal text]
            (buildRenderContext ⟨mergeContexts contexts, [], [], [Instr.literal text]⟩ ctx))
          [] (.block [Instr.literal text])
        Except.ok out) = .ok text
      rw [exec_block_single_literal _ [] text (by norm_num [renderFuel])]
      rfl
    unfold compileRender
    rw [hmake]
    show Template.render ⟨mergeContexts contexts, [], [], [Instr.literal text]⟩ ctx
        = .ok text
    exact hr

/-- Witness for C8 at a concrete input: a delimiter-free text renders
to itself under a non-empty context. -/
theorem c8_witness :
    compileRender "no tags here, just text and a newline\n!".data []
      [("a".data, PyVal.int 1)] = .ok "no tags here, just text and a newline\n!".data := by
  exact c8_no_tag_identity "no tags here, just text and a newline\n!".data []
    [("a".data, PyVal.int 1)] (by decide)

/-- C9 counterexample: the claim quantifies over every template
containing an empty/whitespace-only action tag, but parsing is
sequential and an earlier offending token wins — `{% endif %}{% %}`
contains the empty action tag `{% %}` yet Template construction fails
with a TemplateSyntaxError ("Too many ends"), not with an IndexError. -/
theorem c9_counterexample :
    ("{% %}".data ∈ tokenize "{% endif %}{% %}".data ∧
     startsWith2 '{' '%' "{% %}".data = true ∧
     pystrip (slice2m2 "{% %}".data) = []) ∧
    Template.make "{% endif %}{% %}".data [] =
      .error (.templateSynErr (synErrMsg "Too many ends" "{% endif %}".data)) := by
  exact ⟨⟨by decide, rfl, rfl⟩, rfl⟩

/-- C9 as amended: an action token whose inner text is empty or
whitespace-only makes the token loop fail with an unguarded IndexError
(`words[0]` on the empty word list), not a TemplateSyntaxError, from
any parser state; hence whenever the tokens before such a tag parse
without error, Template construction fails with that IndexError. -/
theorem c9_empty_action_indexerror_amended :
    (∀ (st : ParseSt) (tok : Name) (ts : List Name),
        startsWith2 '{' '%' tok = true →
        splitWS (pystrip (slice2m2 tok)) = [] →
        parseTokens st (tok :: ts) = .error .indexErr) ∧
    (∀ (text : Name) (contexts : List (DictL PyVal)) (pre : List Name)
        (tok : Name) (ts : List Name) (st : ParseSt),
        tokenize text = pre ++ tok :: ts →
        parseTokens initSt pre = .ok st →
        startsWith2 '{' '%' tok = true →
        splitWS (pystrip (slice2m2 tok)) = [] →
        Template.make text contexts = .error .indexErr) := by
  constructor
  · exact parseTokens_empty_action
  · intro text contexts pre tok ts st htok hpre h1 h2
    unfold Template.make
    rw [htok, parseTokens_append pre initSt (tok :: ts), hpre]
    show (do
      let st ← parseTokens st (tok :: ts)
      match st.stack with
      | fr :: _ => Except.error (synErr "Unmatched action tag" fr.kind)
      | [] =>
        if execCompiles (st.allv ++ st.loopv) st.cur ((pre ++ tok :: ts).length + 1) = true then
          Except.ok ({ context := mergeContexts contexts, all_vars := st.allv,
                       loop_vars := st.loopv, prog := st.cur } : Template)
        else Except.error PErr.srcSynErr) = Except.error PErr.indexErr
    rw [parseTokens_empty_action st tok ts h1 h2]
    rfl

/-- Witness for the amended C9 at a concrete input: the template
`{% %}` (whose token list is the empty literal, the tag, the empty
literal) fails construction with IndexError. -/
theorem c9_witness :
    Template.make "{% %}".data [] = .error .indexErr := by
  exact c9_empty_action_indexerror_amended.2 "{% %}".data [] [[]]
    "{% %}".data [[]] initSt rfl rfl rfl rfl
